import Mathlib

set_option autoImplicit false
set_option maxRecDepth 10000

/-!
Shallow embedding of the local order-book synchronization engine:
the `LocalOrderBook` class of `utils/localOrderBook.ts` (sides stored in
insertion-ordered JS `Map<string, string>` objects plus a `lastUpdateId`
cursor) and the snapshot-validation loop of `fetchAndSyncSnapshot` in the
WebSocket test file.  Update identifiers are modelled as `Nat` (they are
non-negative sequence numbers); JS fields that may be `undefined` on a
malformed event are modelled as `Option`.
-/

namespace FlowDesk

/-- One side of the order book: the JS `Map<string, string>` from price
string to quantity string, modelled as an insertion-ordered association
list with unique keys. -/
abbrev OrderBookSide := List (String × String)

/-- JS `Map.get`: the value stored at key `k`, if any. -/
def mapLookup (m : OrderBookSide) (k : String) : Option String :=
  match m with
  | [] => none
  | (k', v) :: rest => if k' = k then some v else mapLookup rest k

/-- JS `Map.set`: overwrite the value in place when the key is present,
append a new entry otherwise. -/
def mapSet (m : OrderBookSide) (k v : String) : OrderBookSide :=
  match m with
  | [] => [(k, v)]
  | (k', v') :: rest => if k' = k then (k, v) :: rest else (k', v') :: mapSet rest k v

/-- JS `Map.delete`: remove the entry stored at key `k`, if any.  Keys
of a JS `Map` are unique, so removing every binding of `k` coincides
with removing the single one. -/
def mapDelete (m : OrderBookSide) (k : String) : OrderBookSide :=
  match m with
  | [] => []
  | (k', v') :: rest => if k' = k then mapDelete rest k else (k', v') :: mapDelete rest k

/-- Numeric value of a digit character. -/
def digitVal (c : Char) : Nat := c.toNat - 48

/-- Value of a digit run read most-significant first. -/
def digitsToNat (ds : List Char) : Nat :=
  ds.foldl (fun a c => 10 * a + digitVal c) 0

/-- Mantissa part of the grammar accepted by JS `parseFloat` after the
optional sign: digits with an optional fractional part.  Returns the
digits read as one integer, the number of fractional digits, and the
unconsumed remainder; `none` when no digit is found (`parseFloat`
returns `NaN` there). -/
def parseMantissa (cs : List Char) : Option (Nat × Nat × List Char) :=
  let (ints, r1) := cs.span Char.isDigit
  match r1 with
  | '.' :: r2 =>
    let (fracs, r3) := r2.span Char.isDigit
    if ints.isEmpty && fracs.isEmpty then none
    else some (digitsToNat (ints ++ fracs), fracs.length, r3)
  | _ =>
    if ints.isEmpty then none else some (digitsToNat ints, 0, r1)

/-- Signed digit run of an exponent part; an exponent marker not
followed by digits contributes exponent `0` (the marker is then not part
of the numeric prefix `parseFloat` consumes, so the value is unchanged). -/
def parseSignedExp (cs : List Char) : Int :=
  match cs with
  | '+' :: r => (digitsToNat (r.span Char.isDigit).1 : Int)
  | '-' :: r => -(digitsToNat (r.span Char.isDigit).1 : Int)
  | r => (digitsToNat (r.span Char.isDigit).1 : Int)

/-- Exponent part of the `parseFloat` grammar: `e` or `E` followed by an
optionally signed digit run, contributing `0` when absent or invalid. -/
def parseExpPart (cs : List Char) : Int :=
  match cs with
  | 'e' :: r => parseSignedExp r
  | 'E' :: r => parseSignedExp r
  | _ => 0

/-- Exact rational value of the longest numeric prefix JS `parseFloat`
reads from `s`, represented as `(n, e)` meaning `n * 10 ^ e`: leading
whitespace is skipped, then an optional sign, digits with an optional
fractional part, and an optional exponent.  `none` models `NaN` (no
numeric prefix at all). -/
def parseFloatRep (s : String) : Option (Int × Int) :=
  let cs := s.toList.dropWhile Char.isWhitespace
  let signed : Bool × List Char :=
    match cs with
    | '-' :: r => (true, r)
    | '+' :: r => (false, r)
    | r => (false, r)
  match parseMantissa signed.2 with
  | none => none
  | some (m, fracLen, rest) =>
    let e : Int := parseExpPart rest - (fracLen : Int)
    let n : Int := if signed.1 then -(m : Int) else (m : Int)
    some (n, e)

/-- The test `parseFloat(s) === 0` from the source.  `parseFloat`
produces an IEEE-754 binary64 value; under round-to-nearest-even an
exact value `x` converts to a zero exactly when `abs x` is at most
`2 ^ (-1075)` (half the smallest subnormal; the tie rounds to the even
mantissa, which is zero).  With the exact value `n * 10 ^ e` and `e < 0`
that reads `abs n * 2 ^ 1075 <= 10 ^ (-e)`.  `NaN === 0` is false. -/
def parseFloatEqZero (s : String) : Bool :=
  match parseFloatRep s with
  | none => false
  | some (n, e) =>
    if n = 0 then true
    else if 0 ≤ e then false
    else decide (n.natAbs * 2 ^ 1075 ≤ 10 ^ (-e).toNat)

/-- Depth update event from the WebSocket stream
(`DepthUpdateEvent` in `utils/localOrderBook.ts`).  Fields are `Option`
because a malformed JSON message may omit any of them (`undefined`), and
`applyEvent` checks for exactly that (`typeof u === 'number'`,
`Array.isArray(bids)`). -/
structure DepthUpdateEvent where
  U : Option Nat
  u : Option Nat
  bids : Option (List (String × String))
  asks : Option (List (String × String))
deriving DecidableEq

/-- State of the `LocalOrderBook` class: the two side maps and the
`lastUpdateId` cursor, `none` before a snapshot is loaded. -/
structure LocalOrderBook where
  bids : OrderBookSide
  asks : OrderBookSide
  lastUpdateId : Option Nat
deriving DecidableEq

/-- The `LocalOrderBook` constructor: empty sides, `lastUpdateId = null`. -/
def LocalOrderBook.empty : LocalOrderBook := ⟨[], [], none⟩

/-- REST order book snapshot (`OrderBookSnapshot` in
`utils/fetchRestSnapshot.ts`). -/
structure Snapshot where
  lastUpdateId : Nat
  bids : List (String × String)
  asks : List (String × String)
deriving DecidableEq

/-- The `setFromSnapshot` method: clear both sides, `Map.set` every
snapshot level, and set `lastUpdateId`.  The prior state is discarded by
the `clear()` calls, so the result does not depend on `b`. -/
def setFromSnapshot (b : LocalOrderBook) (s : Snapshot) : LocalOrderBook :=
  { bids := s.bids.foldl (fun m pq => mapSet m pq.1 pq.2) []
    asks := s.asks.foldl (fun m pq => mapSet m pq.1 pq.2) []
    lastUpdateId := some s.lastUpdateId }

/-- Loop body of `applyEvent` for one `[price, qty]` pair: delete the
price level when `parseFloat(qty) === 0`, otherwise set it. -/
def applyLevel (side : OrderBookSide) (pq : String × String) : OrderBookSide :=
  if parseFloatEqZero pq.2 then mapDelete side pq.1 else mapSet side pq.1 pq.2

/-- One side loop of `applyEvent` over the event levels in order. -/
def applyLevels (side : OrderBookSide) (levels : List (String × String)) : OrderBookSide :=
  levels.foldl applyLevel side

/-- Unconditional tail of `applyEvent`: apply each side only when the
field is an array (`Array.isArray`), then set `lastUpdateId` only when
`u` is a number. -/
def applyEventBody (b : LocalOrderBook) (e : DepthUpdateEvent) : LocalOrderBook :=
  { bids :=
      match e.bids with
      | some levels => applyLevels b.bids levels
      | none => b.bids
    asks :=
      match e.asks with
      | some levels => applyLevels b.asks levels
      | none => b.asks
    lastUpdateId :=
      match e.u with
      | some u => some u
      | none => b.lastUpdateId }

/-- Error message pushed by `applyEvent` on a detected sequence gap,
with the event `U` and the current `lastUpdateId + 1` interpolated. -/
def gapMessage (U lastPlus1 : Nat) : String :=
  "Event U=" ++ toString U ++ " > lastUpdateId+1=" ++ toString lastPlus1 ++
    ", out of sequence. Restarting sync."

/-- The `applyEvent` method of `LocalOrderBook`.  When `u` is a number
and the book is initialized: an event with `u < lastUpdateId` is ignored
outright; an event with `U > lastUpdateId + 1` (a JS comparison that is
false when `U` is `undefined`) pushes the gap message onto `errors` and
returns with no mutation; otherwise — and likewise whenever `u` is
missing or the book is uninitialized — the levels are applied and the
cursor updated by `applyEventBody`.  Returns the new state together with
the error log. -/
def applyEvent (b : LocalOrderBook) (e : DepthUpdateEvent) (errors : List String) :
    LocalOrderBook × List String :=
  match e.u, b.lastUpdateId with
  | some u, some last =>
    if u < last then (b, errors)
    else
      match e.U with
      | some U =>
        if last + 1 < U then (b, errors ++ [gapMessage U (last + 1)])
        else (applyEventBody b e, errors)
      | none => (applyEventBody b e, errors)
  | _, _ => (applyEventBody b e, errors)

/-- Fold of `applyEvent` over a list of events, keeping only the state
(the error log grows independently of the state transitions). -/
def applyAll (b : LocalOrderBook) (events : List DepthUpdateEvent) : LocalOrderBook :=
  events.foldl (fun st e => (applyEvent st e []).1) b

/-- Staleness test of `fetchAndSyncSnapshot`:
`eventBuffer.length > 0 && eventBuffer[0].U && snapshot.lastUpdateId < eventBuffer[0].U`.
The middle conjunct is JS truthiness of the first buffered `U`, false
when that field is `undefined` or `0`. -/
def snapshotIsStale (buffer : List DepthUpdateEvent) (s : Snapshot) : Bool :=
  match buffer with
  | [] => false
  | e :: _ =>
    match e.U with
    | some firstU => firstU != 0 && decide (s.lastUpdateId < firstU)
    | none => false

/-- The `while (true)` snapshot re-fetch loop of `fetchAndSyncSnapshot`:
`fetches i` is the snapshot returned by the `i`-th REST call; a stale
snapshot is discarded and the loop continues with the next fetch.  The
source loop has no retry bound, so the embedding is fuelled: `none`
means the loop is still running after `fuel` fetches. -/
def fetchSnapshotLoop (fetches : Nat → Snapshot) (buffer : List DepthUpdateEvent) :
    Nat → Nat → Option (Nat × Snapshot)
  | _, 0 => none
  | i, fuel + 1 =>
    let s := fetches i
    if snapshotIsStale buffer s then fetchSnapshotLoop fetches buffer (i + 1) fuel
    else some (i, s)

/-- Quantity strings of every entry of a side are nonzero under the
zero test the source uses. -/
def sideNoZero (m : OrderBookSide) : Bool :=
  m.all fun pq => !parseFloatEqZero pq.2

/-- Both sides of the book are free of zero-quantity entries. -/
def bookNoZero (b : LocalOrderBook) : Bool :=
  sideNoZero b.bids && sideNoZero b.asks

/-- Every level of the snapshot has a nonzero quantity. -/
def snapshotNoZero (s : Snapshot) : Bool :=
  (s.bids.all fun pq => !parseFloatEqZero pq.2) &&
    (s.asks.all fun pq => !parseFloatEqZero pq.2)

/-- Snapshot source used for the unbounded-retry refutation: every REST
fetch returns an identical snapshot at `lastUpdateId = 40`. -/
def c3StaleSource : Nat → Snapshot := fun _ => ⟨40, [("10", "1")], [("11", "1")]⟩

/-- Buffer whose first event starts at `U = 50`, ahead of every snapshot
that `c3StaleSource` produces. -/
def c3StaleBuffer : List DepthUpdateEvent := [⟨some 50, some 55, some [], some []⟩]

/-- Snapshot source whose first fetch is stale (`lastUpdateId = 40`) and
whose second fetch is fresh (`lastUpdateId = 60`). -/
def c3MixedSource : Nat → Snapshot := fun i => if i = 0 then ⟨40, [], []⟩ else ⟨60, [], []⟩

/-- Snapshot source for the staleness-check witness: a stale fetch at
`lastUpdateId = 40` followed by fresh fetches at `lastUpdateId = 60`. -/
def c9Source : Nat → Snapshot := fun i => if i = 0 then ⟨40, [], []⟩ else ⟨60, [], []⟩

/-- First buffered event with `U = 50` for the staleness-check witness. -/
def c9First : DepthUpdateEvent := ⟨some 50, some 55, some [], some []⟩

/-!
Small theory of the JS `Map` model, shared by several results below.
-/

theorem mapLookup_mapSet_self (m : OrderBookSide) (k v : String) :
    mapLookup (mapSet m k v) k = some v := by
  induction m with
  | nil => simp [mapSet, mapLookup]
  | cons hd tl ih =>
    obtain ⟨k', v'⟩ := hd
    by_cases hk : k' = k
    · simp [mapSet, hk, mapLookup]
    · simp [mapSet, hk, mapLookup, ih]

theorem mapLookup_mapSet_other (m : OrderBookSide) (k v k' : String) (h : k ≠ k') :
    mapLookup (mapSet m k v) k' = mapLookup m k' := by
  induction m with
  | nil => simp [mapSet, mapLookup, h]
  | cons hd tl ih =>
    obtain ⟨ka, va⟩ := hd
    by_cases hk : ka = k
    · subst hk
      simp [mapSet, mapLookup, h]
    · simp [mapSet, hk, mapLookup, ih]

theorem mapLookup_mapDelete_self (m : OrderBookSide) (k : String) :
    mapLookup (mapDelete m k) k = none := by
  induction m with
  | nil => rfl
  | cons hd tl ih =>
    obtain ⟨k', v'⟩ := hd
    by_cases hk : k' = k
    · simp [mapDelete, hk, ih]
    · simp [mapDelete, hk, mapLookup, ih]

theorem mapDelete_of_lookup_none (m : OrderBookSide) (k : String)
    (h : mapLookup m k = none) : mapDelete m k = m := by
  induction m with
  | nil => rfl
  | cons hd tl ih =>
    obtain ⟨k', v'⟩ := hd
    by_cases hk : k' = k
    · simp [mapLookup, hk] at h
    · simp only [mapLookup, if_neg hk] at h
      simp [mapDelete, hk, ih h]

theorem mem_mapSet (m : OrderBookSide) (k v : String) (pq : String × String)
    (h : pq ∈ mapSet m k v) : pq = (k, v) ∨ pq ∈ m := by
  induction m with
  | nil =>
    left
    simpa [mapSet] using h
  | cons hd tl ih =>
    obtain ⟨k', v'⟩ := hd
    by_cases hk : k' = k
    · simp only [mapSet, if_pos hk] at h
      rcases List.mem_cons.mp h with heq | hmem
      · exact Or.inl heq
      · exact Or.inr (List.mem_cons_of_mem _ hmem)
    · simp only [mapSet, if_neg hk] at h
      rcases List.mem_cons.mp h with heq | hmem
      · exact Or.inr (heq ▸ List.mem_cons_self _ _)
      · rcases ih hmem with h1 | h2
        · exact Or.inl h1
        · exact Or.inr (List.mem_cons_of_mem _ h2)

theorem mem_mapDelete (m : OrderBookSide) (k : String) (pq : String × String)
    (h : pq ∈ mapDelete m k) : pq ∈ m := by
  induction m with
  | nil => simpa [mapDelete] using h
  | cons hd tl ih =>
    obtain ⟨k', v'⟩ := hd
    by_cases hk : k' = k
    · simp only [mapDelete, if_pos hk] at h
      exact List.mem_cons_of_mem _ (ih h)
    · simp only [mapDelete, if_neg hk] at h
      rcases List.mem_cons.mp h with heq | hmem
      · exact heq ▸ List.mem_cons_self _ _
      · exact List.mem_cons_of_mem _ (ih hmem)

theorem sideNoZero_eq_true_iff (m : OrderBookSide) :
    sideNoZero m = true ↔ ∀ pq ∈ m, parseFloatEqZero pq.2 = false := by
  simp [sideNoZero, List.all_eq_true]

theorem sideNoZero_mapSet (m : OrderBookSide) (k v : String)
    (hv : parseFloatEqZero v = false) (hm : sideNoZero m = true) :
    sideNoZero (mapSet m k v) = true := by
  rw [sideNoZero_eq_true_iff] at hm ⊢
  intro pq hpq
  rcases mem_mapSet m k v pq hpq with heq | hmem
  · rw [heq]
    exact hv
  · exact hm pq hmem

theorem sideNoZero_mapDelete (m : OrderBookSide) (k : String)
    (hm : sideNoZero m = true) : sideNoZero (mapDelete m k) = true := by
  rw [sideNoZero_eq_true_iff] at hm ⊢
  intro pq hpq
  exact hm pq (mem_mapDelete m k pq hpq)

theorem sideNoZero_applyLevels (levels : List (String × String)) :
    ∀ m : OrderBookSide, sideNoZero m = true →
      sideNoZero (applyLevels m levels) = true := by
  induction levels with
  | nil => exact fun m hm => hm
  | cons pq0 rest ih =>
    intro m hm
    refine ih (applyLevel m pq0) ?_
    unfold applyLevel
    by_cases hz : parseFloatEqZero pq0.2 = true
    · rw [if_pos hz]
      exact sideNoZero_mapDelete m pq0.1 hm
    · rw [if_neg hz]
      exact sideNoZero_mapSet m pq0.1 pq0.2 (by simpa using hz) hm

theorem bookNoZero_applyEventBody (b : LocalOrderBook) (e : DepthUpdateEvent)
    (hb : bookNoZero b = true) : bookNoZero (applyEventBody b e) = true := by
  obtain ⟨hb1, hb2⟩ : sideNoZero b.bids = true ∧ sideNoZero b.asks = true := by
    simpa [bookNoZero, Bool.and_eq_true] using hb
  simp only [bookNoZero, applyEventBody, Bool.and_eq_true]
  constructor
  · cases h : e.bids with
    | none => exact hb1
    | some levels => exact sideNoZero_applyLevels levels b.bids hb1
  · cases h : e.asks with
    | none => exact hb2
    | some levels => exact sideNoZero_applyLevels levels b.asks hb2

theorem bookNoZero_applyEvent (b : LocalOrderBook) (e : DepthUpdateEvent)
    (errors : List String) (hb : bookNoZero b = true) :
    bookNoZero (applyEvent b e errors).1 = true := by
  unfold applyEvent
  split
  · split_ifs with h1
    · exact hb
    · split
      · split_ifs with h2
        · exact hb
        · exact bookNoZero_applyEventBody _ _ hb
      · exact bookNoZero_applyEventBody _ _ hb
  · exact bookNoZero_applyEventBody _ _ hb

theorem bookNoZero_applyAll (events : List DepthUpdateEvent) :
    ∀ b : LocalOrderBook, bookNoZero b = true →
      bookNoZero (applyAll b events) = true := by
  induction events with
  | nil => exact fun b hb => hb
  | cons e es ih => exact fun b hb => ih _ (bookNoZero_applyEvent b e [] hb)

theorem sideNoZero_setFold (levels : List (String × String)) :
    ∀ acc : OrderBookSide, (levels.all fun pq => !parseFloatEqZero pq.2) = true →
      sideNoZero acc = true →
      sideNoZero (levels.foldl (fun m pq => mapSet m pq.1 pq.2) acc) = true := by
  induction levels with
  | nil => exact fun acc _ h => h
  | cons pq rest ih =>
    intro acc hl hacc
    simp only [List.all_cons, Bool.and_eq_true] at hl
    exact ih _ hl.2 (sideNoZero_mapSet acc pq.1 pq.2 (by simpa using hl.1) hacc)

/-- Cursor step of `applyEvent`: from an initialized book the cursor
either stays put or moves forward to the event's `u`. -/
theorem applyEvent_cursor_mono (bbids basks : OrderBookSide) (C : Nat)
    (e : DepthUpdateEvent) (errors : List String) :
    ∃ C', (applyEvent ⟨bbids, basks, some C⟩ e errors).1.lastUpdateId = some C' ∧
      C ≤ C' := by
  obtain ⟨eU, eu, ebids, easks⟩ := e
  cases eu with
  | none => exact ⟨C, by simp [applyEvent, applyEventBody], le_refl C⟩
  | some u =>
    by_cases h1 : u < C
    · exact ⟨C, by simp [applyEvent, h1], le_refl C⟩
    · cases eU with
      | none => exact ⟨u, by simp [applyEvent, h1, applyEventBody], by omega⟩
      | some U =>
        by_cases h2 : C + 1 < U
        · exact ⟨C, by simp [applyEvent, h1, h2], le_refl C⟩
        · exact ⟨u, by simp [applyEvent, h1, h2, applyEventBody], by omega⟩

/-- C1: a `SequenceGap` is detected while live (book at cursor 100,
event with `U = 105`), and the entire reaction of the code is to push
"... Restarting sync." onto the error log and drop the event: the state
returned is exactly the input state, still at cursor 100, and nothing in
the repository discards the book, re-buffers, or re-fetches a snapshot
afterwards — despite the message's claim that sync restarts. -/
theorem c1_gap_no_resync :
    applyEvent ⟨[("10.0", "1")], [("10.1", "1")], some 100⟩
        ⟨some 105, some 110, some [("10.05", "2")], some []⟩ [] =
      (⟨[("10.0", "1")], [("10.1", "1")], some 100⟩,
        ["Event U=105 > lastUpdateId+1=101, out of sequence. Restarting sync."]) := by
  decide

/-- C2: on an initialized book with cursor `C`, an event whose `U`
exceeds `C + 1` is answered by the sequence-gap signal (the gap message
is appended to the error log) and the state is returned entirely
unchanged: bids, asks and `lastUpdateId` are exactly as before. -/
theorem c2_sequence_gap_no_mutation (bbids basks : OrderBookSide)
    (errors : List String) (C u U : Nat)
    (ebids easks : Option (List (String × String)))
    (hwf : U ≤ u) (hgap : C + 1 < U) :
    applyEvent ⟨bbids, basks, some C⟩ ⟨some U, some u, ebids, easks⟩ errors =
      (⟨bbids, basks, some C⟩, errors ++ [gapMessage U (C + 1)]) := by
  have h1 : ¬ u < C := by omega
  simp [applyEvent, h1, hgap]

/-- Witness for C2 at the spec's own example: cursor 100 and event
`{U: 105, u: 110}`. -/
theorem c2_witness :
    applyEvent ⟨[("10.0", "1")], [], some 100⟩
        ⟨some 105, some 110, some [("10.05", "2")], some []⟩ [] =
      (⟨[("10.0", "1")], [], some 100⟩, [] ++ [gapMessage 105 (100 + 1)]) :=
  c2_sequence_gap_no_mutation [("10.0", "1")] [] [] 100 110 105
    (some [("10.05", "2")]) (some []) (by omega) (by omega)

/-- C7: from any initialized book, a whole sequence of `applyEvent`
calls leaves the cursor initialized and never decreases it. -/
theorem c7_lastUpdateId_monotone (bbids basks : OrderBookSide) (C : Nat)
    (events : List DepthUpdateEvent) :
    ∃ C', (applyAll ⟨bbids, basks, some C⟩ events).lastUpdateId = some C' ∧
      C ≤ C' := by
  induction events generalizing bbids basks C with
  | nil => exact ⟨C, rfl, le_refl C⟩
  | cons e es ih =>
    obtain ⟨C1, hC1, hle1⟩ :=
      applyEvent_cursor_mono bbids basks C e []
    have hstep :
        applyAll ⟨bbids, basks, some C⟩ (e :: es) =
          applyAll (applyEvent ⟨bbids, basks, some C⟩ e []).1 es := rfl
    have hb1 :
        (applyEvent ⟨bbids, basks, some C⟩ e []).1 =
          ⟨(applyEvent ⟨bbids, basks, some C⟩ e []).1.bids,
            (applyEvent ⟨bbids, basks, some C⟩ e []).1.asks, some C1⟩ := by
      rw [← hC1]
    obtain ⟨C', hC', hle2⟩ :=
      ih (applyEvent ⟨bbids, basks, some C⟩ e []).1.bids
        (applyEvent ⟨bbids, basks, some C⟩ e []).1.asks C1
    refine ⟨C', ?_, le_trans hle1 hle2⟩
    rw [hstep, hb1]
    exact hC'

/-- C8: on an initialized book with cursor `C`, an event with
`u ≥ C` and `U ≤ C + 1` is applied: each `[price, qty]` pair of either
side deletes the price when the quantity tests as zero and sets it
otherwise, the cursor becomes `u`, and no error is recorded.  In
particular a zero-quantity pair for an absent price leaves the side
unchanged, and after a zero-quantity pair the price is absent. -/
theorem c8_in_sequence_apply (bbids basks : OrderBookSide)
    (errors : List String) (C u U : Nat) (ebids easks : List (String × String))
    (hu : C ≤ u) (hU : U ≤ C + 1) :
    applyEvent ⟨bbids, basks, some C⟩ ⟨some U, some u, some ebids, some easks⟩
        errors =
      (⟨applyLevels bbids ebids, applyLevels basks easks, some u⟩, errors) ∧
    (∀ (m : OrderBookSide) (p q : String), parseFloatEqZero q = true →
      mapLookup m p = none → applyLevel m (p, q) = m) ∧
    (∀ (m : OrderBookSide) (p q : String), parseFloatEqZero q = true →
      mapLookup (applyLevel m (p, q)) p = none) := by
  refine ⟨?_, ?_, ?_⟩
  · have h1 : ¬ u < C := by omega
    have h2 : ¬ C + 1 < U := by omega
    simp [applyEvent, h1, h2, applyEventBody]
  · intro m p q hq hnone
    simp only [applyLevel, hq, if_true]
    exact mapDelete_of_lookup_none m p hnone
  · intro m p q hq
    simp only [applyLevel, hq, if_true]
    exact mapLookup_mapDelete_self m p

/-- Witness for C8: cursor 100, event `u = 101`, a zero-quantity pair
removing the bid at "10", a set at "11" and an ask set at "12". -/
theorem c8_witness :
    applyEvent ⟨[("10", "1")], [], some 100⟩
        ⟨some 101, some 101, some [("10", "0"), ("11", "2")], some [("12", "3")]⟩
        [] =
      (⟨applyLevels [("10", "1")] [("10", "0"), ("11", "2")],
        applyLevels [] [("12", "3")], some 101⟩, []) :=
  (c8_in_sequence_apply [("10", "1")] [] [] 100 101 101
    [("10", "0"), ("11", "2")] [("12", "3")] (by omega) (by omega)).1

/-- C10: on an uninitialized book (`lastUpdateId = null`) no sequence
check runs at all: whatever `U` is and whatever order relation `u` has
to anything, the event's levels are applied to both sides and the cursor
is set to `u`. -/
theorem c10_uninitialized_applies_all (bbids basks : OrderBookSide)
    (errors : List String) (U? : Option Nat) (u : Nat)
    (ebids easks : List (String × String)) :
    applyEvent ⟨bbids, basks, none⟩ ⟨U?, some u, some ebids, some easks⟩ errors =
      (⟨applyLevels bbids ebids, applyLevels basks easks, some u⟩, errors) := by
  simp [applyEvent, applyEventBody]

/-- Under the persistently stale source the re-fetch loop is still
running after any number of fetches, from any start index. -/
theorem stale_loop_never_returns :
    ∀ fuel i, fetchSnapshotLoop c3StaleSource c3StaleBuffer i fuel = none := by
  intro fuel
  induction fuel with
  | zero => intro i; rfl
  | succ n ih =>
    intro i
    have hs : snapshotIsStale c3StaleBuffer (c3StaleSource i) = true := rfl
    simp only [fetchSnapshotLoop, hs, if_true]
    exact ih (i + 1)

/-- C3 counterexample: under a persistently stale snapshot source (every
fetch at `lastUpdateId = 40`, first buffered `U = 50`), after 1000
re-fetches the loop is still running and no staleness failure has been
reported — there is no retry ceiling at all (`stale_loop_never_returns`
extends this to every number of fetches). -/
theorem c3_counterexample :
    fetchSnapshotLoop c3StaleSource c3StaleBuffer 0 1000 = none :=
  stale_loop_never_returns 1000 0

/-- C3 amended: the snapshot-validation loop of `fetchAndSyncSnapshot`
has no retry ceiling: a stale fetch makes it continue with the next
fetch unconditionally, and it stops exactly at the first fetch that is
not stale, returning that snapshot. -/
theorem c3_unbounded_retry (fetches : Nat → Snapshot)
    (buffer : List DepthUpdateEvent) (i fuel : Nat) :
    (snapshotIsStale buffer (fetches i) = true →
      fetchSnapshotLoop fetches buffer i (fuel + 1) =
        fetchSnapshotLoop fetches buffer (i + 1) fuel) ∧
    (snapshotIsStale buffer (fetches i) = false →
      fetchSnapshotLoop fetches buffer i (fuel + 1) = some (i, fetches i)) := by
  constructor <;> intro h <;> simp [fetchSnapshotLoop, h]

/-- Witness for the amended C3: one stale fetch followed by a fresh one
is accepted at index 1. -/
theorem c3_unbounded_retry_witness :
    fetchSnapshotLoop c3MixedSource c3StaleBuffer 0 2 = some (1, c3MixedSource 1) := by
  have h1 := (c3_unbounded_retry c3MixedSource c3StaleBuffer 0 1).1 (by decide)
  have h2 := (c3_unbounded_retry c3MixedSource c3StaleBuffer 1 0).2 (by decide)
  calc fetchSnapshotLoop c3MixedSource c3StaleBuffer 0 2
      = fetchSnapshotLoop c3MixedSource c3StaleBuffer 1 1 := h1
    _ = some (1, c3MixedSource 1) := h2

/-- C9: when the buffer is nonempty and its first event carries `U`, a
fetched snapshot with `lastUpdateId < U` is rejected — the loop moves on
to the next fetch — and any snapshot the loop does return satisfies
`lastUpdateId ≥ U`, so the book is only initialized from such a
snapshot. -/
theorem c9_stale_snapshot_rejected (fetches : Nat → Snapshot)
    (e : DepthUpdateEvent) (rest : List DepthUpdateEvent) (firstU : Nat)
    (hU : e.U = some firstU) :
    (∀ i fuel, (fetches i).lastUpdateId < firstU →
      fetchSnapshotLoop fetches (e :: rest) i (fuel + 1) =
        fetchSnapshotLoop fetches (e :: rest) (i + 1) fuel) ∧
    (∀ i fuel j s, fetchSnapshotLoop fetches (e :: rest) i fuel = some (j, s) →
      firstU ≤ s.lastUpdateId) := by
  constructor
  · intro i fuel h
    have h0 : firstU ≠ 0 := by omega
    have hs : snapshotIsStale (e :: rest) (fetches i) = true := by
      simp [snapshotIsStale, hU, h, h0]
    simp [fetchSnapshotLoop, hs]
  · intro i fuel
    induction fuel generalizing i with
    | zero =>
      intro j s h
      simp [fetchSnapshotLoop] at h
    | succ n ih =>
      intro j s h
      by_cases hs : snapshotIsStale (e :: rest) (fetches i) = true
      · simp only [fetchSnapshotLoop, hs, if_true] at h
        exact ih (i + 1) j s h
      · have hs' : snapshotIsStale (e :: rest) (fetches i) = false := by
          simpa using hs
        simp only [fetchSnapshotLoop, hs', if_false, Option.some.injEq,
          Prod.mk.injEq] at h
        obtain ⟨rfl, rfl⟩ := h
        by_cases h0 : firstU = 0
        · omega
        · by_cases hlt : (fetches i).lastUpdateId < firstU
          · exfalso
            have : snapshotIsStale (e :: rest) (fetches i) = true := by
              simp [snapshotIsStale, hU, h0, hlt]
            rw [this] at hs'
            exact Bool.noConfusion hs'
          · omega

/-- Witness for C9 at the spec's example: first buffered `U = 50`, a
fetch at `lastUpdateId = 40` is rejected, and the accepted snapshot
(`lastUpdateId = 60`) satisfies the bound. -/
theorem c9_witness : (50 : Nat) ≤ (Snapshot.mk 60 [] []).lastUpdateId :=
  (c9_stale_snapshot_rejected c9Source c9First [] 50 rfl).2 0 2 1
    ⟨60, [], []⟩ (by decide)

/-- Result of `applyEvent` is always either the unchanged input book or
the full level application `applyEventBody`. -/
theorem applyEvent_fst_eq_or (b : LocalOrderBook) (e : DepthUpdateEvent)
    (errors : List String) :
    (applyEvent b e errors).1 = b ∨
      (applyEvent b e errors).1 = applyEventBody b e := by
  unfold applyEvent
  split
  · split_ifs with h1
    · exact Or.inl rfl
    · split
      · split_ifs with h2
        · exact Or.inl rfl
        · exact Or.inr rfl
      · exact Or.inr rfl
  · exact Or.inr rfl

/-- C4 counterexample: the event is malformed — `u` is missing — yet
its bids are still applied: the level at price "10" is deleted from the
book, so the event is not "dropped with no mutation". -/
theorem c4_counterexample :
    (⟨some 101, none, some [("10", "0")], some []⟩ : DepthUpdateEvent).u = none ∧
    (applyEvent ⟨[("10", "1")], [], some 100⟩
        ⟨some 101, none, some [("10", "0")], some []⟩ []).1 =
      ⟨[], [], some 100⟩ :=
  ⟨rfl, by decide⟩

/-- C4 amended: a side whose field is not an array is skipped with no
mutation of that side, and the session always continues; but an event
missing `u` is not rejected as a whole: it bypasses every sequence
check and falls through to the full level application `applyEventBody`,
so its array-shaped sides are still applied and only the cursor is left
unchanged. -/
theorem c4_malformed_applied (b : LocalOrderBook) (eU eu : Option Nat)
    (ebids easks : Option (List (String × String))) (errors : List String) :
    (ebids = none →
      (applyEvent b ⟨eU, eu, ebids, easks⟩ errors).1.bids = b.bids) ∧
    (easks = none →
      (applyEvent b ⟨eU, eu, ebids, easks⟩ errors).1.asks = b.asks) ∧
    (eu = none →
      applyEvent b ⟨eU, eu, ebids, easks⟩ errors =
        (applyEventBody b ⟨eU, eu, ebids, easks⟩, errors) ∧
      (applyEventBody b ⟨eU, eu, ebids, easks⟩).lastUpdateId = b.lastUpdateId) := by
  refine ⟨?_, ?_, ?_⟩
  · intro h
    subst h
    rcases applyEvent_fst_eq_or b ⟨eU, eu, none, easks⟩ errors with h | h <;> rw [h]
    simp [applyEventBody]
  · intro h
    subst h
    rcases applyEvent_fst_eq_or b ⟨eU, eu, ebids, none⟩ errors with h | h <;> rw [h]
    simp [applyEventBody]
  · intro h
    subst h
    exact ⟨rfl, rfl⟩

/-- Witness for the amended C4: the fully malformed event (every field
missing) leaves the bids untouched. -/
theorem c4_witness :
    (applyEvent ⟨[("10", "1")], [], some 100⟩ ⟨none, none, none, none⟩ []).1.bids =
      (⟨[("10", "1")], [], some 100⟩ : LocalOrderBook).bids :=
  (c4_malformed_applied ⟨[("10", "1")], [], some 100⟩ none none none none []).1 rfl

/-- C5 counterexample: `setFromSnapshot` stores snapshot levels
verbatim, so initializing from a snapshot carrying a zero-quantity level
leaves a zero-quantity entry in the book at an observable point. -/
theorem c5_counterexample :
    (setFromSnapshot LocalOrderBook.empty ⟨100, [("10", "0")], []⟩).bids =
      [("10", "0")] ∧ parseFloatEqZero "0" = true :=
  ⟨by decide, by decide⟩

/-- C5 amended: `applyEvent` never inserts a zero-quantity entry (a
zero-quantity pair always removes), so once the book is initialized from
a snapshot whose levels all have nonzero quantities, no side contains a
zero-quantity entry at any observable point — after the initialization
itself and after every sequence of `applyEvent` calls. -/
theorem c5_no_zero_after_clean_init (s : Snapshot)
    (events : List DepthUpdateEvent) (hs : snapshotNoZero s = true) :
    bookNoZero (applyAll (setFromSnapshot LocalOrderBook.empty s) events) = true := by
  obtain ⟨hs1, hs2⟩ : (s.bids.all fun pq => !parseFloatEqZero pq.2) = true ∧
      (s.asks.all fun pq => !parseFloatEqZero pq.2) = true := by
    simpa [snapshotNoZero, Bool.and_eq_true] using hs
  apply bookNoZero_applyAll
  simp only [bookNoZero, setFromSnapshot, Bool.and_eq_true]
  exact ⟨sideNoZero_setFold s.bids [] hs1 rfl, sideNoZero_setFold s.asks [] hs2 rfl⟩

/-- Witness for the amended C5: a clean snapshot followed by a
zero-quantity removal event keeps both sides free of zero entries. -/
theorem c5_witness :
    bookNoZero (applyAll
      (setFromSnapshot LocalOrderBook.empty ⟨100, [("10", "1")], [("11", "2")]⟩)
      [⟨some 101, some 101, some [("10", "0")], some []⟩]) = true :=
  c5_no_zero_after_clean_init ⟨100, [("10", "1")], [("11", "2")]⟩
    [⟨some 101, some 101, some [("10", "0")], some []⟩] (by decide)

/-- C6 counterexample: the decimal string "1e-400" denotes the nonzero
value 10 ^ (-400), far below the smallest positive binary64 subnormal
2 ^ (-1074), so `parseFloat` underflows it to 0 and the zero-sentinel
test `parseFloat(qty) === 0` misfires: applying the event deletes the
level at price "10" although its new quantity is nonzero. -/
theorem c6_counterexample :
    parseFloatRep "1e-400" = some (1, -400) ∧
    parseFloatEqZero "1e-400" = true ∧
    (applyEvent ⟨[("10", "1")], [], some 100⟩
        ⟨some 101, some 101, some [("10", "1e-400")], some []⟩ []).1.bids = [] :=
  ⟨by decide, by decide, by decide⟩

/-- C6 amended: price-key identity is exact string comparison — a set
is read back exactly and distinct price strings never collide — but the
removal decision for quantities goes through `parseFloat` binary-double
semantics: a pair removes its price exactly when `parseFloatEqZero`
holds of the quantity string, and sets it otherwise. -/
theorem c6_price_exact_qty_float :
    (∀ (m : OrderBookSide) (p q : String),
      mapLookup (mapSet m p q) p = some q) ∧
    (∀ (m : OrderBookSide) (p q p' : String), p ≠ p' →
      mapLookup (mapSet m p q) p' = mapLookup m p') ∧
    (∀ (m : OrderBookSide) (p q : String), parseFloatEqZero q = true →
      applyLevel m (p, q) = mapDelete m p) ∧
    (∀ (m : OrderBookSide) (p q : String), parseFloatEqZero q = false →
      applyLevel m (p, q) = mapSet m p q) := by
  refine ⟨fun m p q => mapLookup_mapSet_self m p q,
    fun m p q p' h => mapLookup_mapSet_other m p q p' h, ?_, ?_⟩
  · intro m p q hq
    simp [applyLevel, hq]
  · intro m p q hq
    simp [applyLevel, hq]

/-- Witness for the amended C6: setting price "11" does not disturb the
entry at the distinct price "10". -/
theorem c6_witness :
    mapLookup (mapSet [("10", "1")] "11" "2") "10" =
      mapLookup [("10", "1")] "10" :=
  c6_price_exact_qty_float.2.1 [("10", "1")] "11" "2" "10" (by decide)

end FlowDesk
